import Mathlib

/-!
A shallow embedding of the `fluff` indicator library (src/fluff/__init__.py)
and proofs about its calculator metadata model, window resolution, the
compute-and-diff pipeline, the change pipeline and the result reader.

Modelling conventions:
* Durations (`datetime.timedelta`) and instants are modelled as `Int`;
  a Python `timedelta` is falsy exactly when it is zero, so truthiness of a
  window is `w ≠ 0`.  A `window` attribute that is `None` is `Option.none`.
* Emitted values are modelled as `Int`.
* Python `dict`s are association lists (`List (String × β)`); indexing a
  missing key (`d[k]` raising `KeyError`, or `getattr` raising
  `AttributeError`) is `dictGet`, which returns `Except LookupErr β`.
* couchdbkit schema properties declared via `DictProperty` return the
  default `{}` when unset, so calculator-level access on an indicator
  document (`self[calc_name]`) is total (`calcGet`), while the inner plain
  dicts and dynamic document fields raise `KeyError` on absence.
* Python `set` values are lists read up to membership; `set(a) - set(b)`
  is `a.dedup.filter (· ∉ b)`.
-/

namespace Fluff

/-- A source item: an identifier plus a field dictionary
(`item.get_id`, `item[attr]`). -/
structure Item where
  get_id : String
  fields : List (String × Int)
deriving DecidableEq, Repr

/-- The single lookup failure of the embedding: Python `KeyError` (dict
indexing) and `AttributeError` (missing attribute), which the source never
catches in the diff path. -/
inductive LookupErr where
  | keyError
deriving DecidableEq, Repr

/-- Python `d[k]` on a plain dict: the value, or a `KeyError`. -/
def dictGet {β : Type} (m : List (String × β)) (k : String) : Except LookupErr β :=
  match m.lookup k with
  | some v => .ok v
  | none => .error .keyError

/-! ## CalculatorMeta: merged emitter/filter sets (`CalculatorMeta.__new__`) -/

/-- A calculator class definition: the names tagged on the class body itself
(`_fluff_emitter` / `_fluff_filter` attributes) and the parent classes.
Each parent carries its own already-merged sets, exactly as the metaclass
reads `parent._fluff_emitters` / `parent._fluff_filters`. -/
inductive CalcClass where
  | mk (ownEmitters : List String) (ownFilters : List String)
       (parents : List CalcClass)

mutual

/-- `CalculatorMeta.__new__`: `emitters = set(own tagged)` then
`emitters.update(parent._fluff_emitters)` for every parent. -/
def mergedEmitters : CalcClass → List String
  | .mk own _ ps => own ++ mergedEmittersList ps

/-- The union over a list of parents. -/
def mergedEmittersList : List CalcClass → List String
  | [] => []
  | c :: cs => mergedEmitters c ++ mergedEmittersList cs

end

mutual

/-- `CalculatorMeta.__new__`: `filters = set(own tagged)` then
`filters.update(parent._fluff_filters)` for every parent. -/
def mergedFilters : CalcClass → List String
  | .mk _ own ps => own ++ mergedFiltersList ps

/-- The union over a list of parents. -/
def mergedFiltersList : List CalcClass → List String
  | [] => []
  | c :: cs => mergedFilters c ++ mergedFiltersList cs

end

/-- `c` is derived from `a` by a (non-empty) chain of subclassing: `a` is a
direct base of `c`, or an ancestor of a direct base. -/
inductive Ancestor : CalcClass → CalcClass → Prop
  | parent {own fl ps} (a : CalcClass) : a ∈ ps → Ancestor a (.mk own fl ps)
  | step {own fl ps} (a p : CalcClass) : p ∈ ps → Ancestor a p →
      Ancestor a (.mk own fl ps)

/-! ## Calculator construction (`Calculator.__init__`) -/

/-- A successfully constructed calculator's configuration: the window is
known to be an actual timedelta. -/
structure CalcConfig where
  window : Int
  offsets : List (String × Int × Int)
  emitters : List String
deriving DecidableEq, Repr

/-- The two construction-time failures of `Calculator.__init__` (both are
raised as `NotImplementedError` in the source; the spec calls this class of
failure `ConfigurationError`). -/
inductive ConfigError where
  | windowMustBeTimedelta
  | uncoveredEmitters (names : List String)
deriving DecidableEq, Repr

/-- Python truthiness of the window attribute: `None` is falsy, and a
`timedelta` is falsy exactly when it is zero. -/
def windowTruthy : Option Int → Bool
  | none => false
  | some w => w != 0

/-- `Calculator.__init__`: start from the set of declared emitters, remove
those with an offsets entry, clear the remainder when `self.window` is
truthy; then fail if the window is not a timedelta, and otherwise fail if
any emitter is still uncovered (listing every one of them). -/
def initCalc (emitters : List String) (offsets : List (String × Int × Int))
    (window : Option Int) : Except ConfigError CalcConfig :=
  let notCovered0 := emitters.dedup.filter (fun e => (offsets.lookup e).isNone)
  let notCovered := if windowTruthy window then [] else notCovered0
  match window with
  | none => .error .windowMustBeTimedelta
  | some w =>
    if notCovered.isEmpty then .ok ⟨w, offsets, emitters⟩
    else .error (.uncoveredEmitters notCovered)

/-- `Calculator.get_window`: explicit offset pair when present, else the
trailing window ending at `now`. -/
def get_window (c : CalcConfig) (now : Int) (emitter : String) : Int × Int :=
  match c.offsets.lookup emitter with
  | some (s, e) => (now + s, now + e)
  | none => (now - c.window, now)

/-! ## Calculator.calculate -/

/-- One emitter of a calculator: its kind sentinel (`"date"`, `"null"` or
`"delayed"`, the `_fluff_emitter` attribute) and the bound method. -/
structure EmitterDef where
  kind : String
  fn : Item → List Int

/-- A calculator instance as `calculate` sees it: the overridable base
`filter` method (default `True`), the declared filter predicates
(`_fluff_filters`, resolved to their bound methods) and the declared
emitters (`_fluff_emitters`). -/
structure CalcDef where
  baseFilter : Item → Bool
  filters : List (Item → Bool)
  emitters : List (String × EmitterDef)

/-- `Calculator.calculate`: the item passes when the base filter and every
declared filter predicate hold; every `date`/`null` emitter is then run
(its values collected into a list) or bound to `[]` when the item fails;
`delayed` emitters are skipped entirely. -/
def calculate (c : CalcDef) (item : Item) : List (String × List Int) :=
  let passes := c.baseFilter item && c.filters.all (fun f => f item)
  c.emitters.filterMap (fun p =>
    if p.2.kind = "date" ∨ p.2.kind = "null" then
      some (p.1, if passes then p.2.fn item else [])
    else none)

/-! ## IndicatorDocument: state, compute (`IndicatorDocument.calculate`) -/

/-- Emitter name → ordered value sequence, one calculator's slot in the
document. -/
abbrev EmitterMap := List (String × List Int)

/-- An indicator document: the per-calculator state slots (couchdbkit
`DictProperty` fields), the remaining (dynamic) document fields such as the
copied group-by values, the persisted `group_by` list and the document id. -/
structure IndicatorDoc where
  calcState : List (String × EmitterMap)
  fields : List (String × Int)
  groupBy : List String
  id : String
deriving DecidableEq, Repr

/-- The fresh, empty document `indicator_class(_id=indicator_id)`. -/
def emptyDoc (indicatorId : String) : IndicatorDoc :=
  { calcState := [], fields := [], groupBy := [], id := indicatorId }

/-- `self[calc_name]` for a declared calculator slot: couchdbkit
`DictProperty` returns the default `{}` when the slot was never written, so
this access is total. -/
def calcGet (doc : IndicatorDoc) (calcName : String) : EmitterMap :=
  (doc.calcState.lookup calcName).getD []

/-- Insert-or-overwrite, the effect of `self[attr] = value`. -/
def dictSet {β : Type} (m : List (String × β)) (k : String) (v : β) :
    List (String × β) :=
  if (m.lookup k).isSome then
    m.map (fun p => if p.1 = k then (k, v) else p)
  else m ++ [(k, v)]

/-- The `for attr in self.group_by: self[attr] = item[attr]` loop of
`IndicatorDocument.calculate`: copy each group-by field from the item,
raising `KeyError` when the item lacks one. -/
def copyGroupFields (itemFields : List (String × Int)) :
    List (String × Int) → List String → Except LookupErr (List (String × Int))
  | fields, [] => .ok fields
  | fields, attr :: rest =>
    match itemFields.lookup attr with
    | none => .error .keyError
    | some v => copyGroupFields itemFields (dictSet fields attr v) rest

/-- `IndicatorDocument.calculate`: write every calculator's computed values
into its slot, set the id from the item, copy each `group_by` field from the
item (`item[attr]`, a `KeyError` when absent), and overwrite the persisted
`group_by` with the type's default. -/
def calculateDoc (calcs : List (String × CalcDef)) (defaultGroupBy : List String)
    (doc : IndicatorDoc) (item : Item) : Except LookupErr IndicatorDoc :=
  let state := calcs.foldl (fun st p => dictSet st p.1 (calculate p.2 item))
    doc.calcState
  match copyGroupFields item.fields doc.fields defaultGroupBy with
  | .error err => .error err
  | .ok fields =>
    .ok { calcState := state, fields := fields, groupBy := defaultGroupBy,
          id := item.get_id }

/-! ## IndicatorDocument.diff -/

/-- One entry of `indicator_changes`. -/
structure IndicatorChange where
  calculator : String
  emitter : String
  emitter_type : String
  values : List Int
deriving DecidableEq, Repr

/-- The diff descriptor returned by `IndicatorDocument.diff`. -/
structure DiffDescriptor where
  database : String
  doc_type : String
  group_names : List String
  group_values : List Int
  indicator_changes : List IndicatorChange
deriving DecidableEq, Repr

/-- Python `set(a) - set(b)` rendered as a list: the distinct elements of
`a` that are not in `b` (read up to membership). -/
def setDiffList (a b : List Int) : List Int :=
  a.dedup.filter (fun x => x ∉ b)

/-- `IndicatorDocument._shallow_dict_diff`: `None` when both dicts are
empty, the non-empty side's keys when exactly one is empty, and otherwise
`added | removed | changed` over the key sets (changed = present in both
with unequal value lists). -/
def shallow_dict_diff (left right : EmitterMap) : Option (List String) :=
  if left.isEmpty && right.isEmpty then none
  else if left.isEmpty || right.isEmpty then
    some (if !left.isEmpty then left.map Prod.fst else right.map Prod.fst)
  else
    let leftSet := (left.map Prod.fst).dedup
    let rightSet := (right.map Prod.fst).dedup
    let intersect := rightSet.filter (fun k => k ∈ leftSet)
    let added := rightSet.filter (fun k => k ∉ intersect)
    let removed := leftSet.filter (fun k => k ∉ intersect)
    let changed := intersect.filter (fun k => left.lookup k ≠ right.lookup k)
    some (added ++ removed ++ changed)

/-- The emitters of one calculator slot whose value list is truthy, i.e.
non-empty (`for emitter_name, values in self[calc_name].items(): if
values:`). -/
def nonemptyNames (m : EmitterMap) : List String :=
  (m.filter (fun p => !p.2.isEmpty)).map Prod.fst

/-- The first phase of `diff`: the `diff_keys` mapping from calculator name
to its changed emitter names.  With a previous document the changed names
come from `_shallow_dict_diff` (an empty result set is falsy and skipped);
without one, every emitter whose value list is truthy (non-empty). -/
def computeDiffKeys (calcNames : List String) (doc : IndicatorDoc)
    (other : Option IndicatorDoc) :
    List (String × List String) :=
  match calcNames with
  | [] => []
  | c :: rest =>
    let tail := computeDiffKeys rest doc other
    match other with
    | some o =>
      match shallow_dict_diff (calcGet doc c) (calcGet o c) with
      | some names => if names.isEmpty then tail else (c, names) :: tail
      | none => tail
    | none =>
      let names := nonemptyNames (calcGet doc c)
      if names.isEmpty then tail else (c, names) :: tail

/-- The value difference for one changed emitter
(`IndicatorDocument._indicator_diff`, lines 279-282): with a previous
document, `list(set(self[calc][em]) - set(other[calc][em]))` — note the
one-sided set difference, evaluated left side first; without one, the full
current sequence.  Indexing the inner plain dicts raises `KeyError` on a
missing emitter name. -/
def emitterValuesDiff (doc : IndicatorDoc) (other : Option IndicatorDoc)
    (calcName emitterName : String) : Except LookupErr (List Int) :=
  match other with
  | some o =>
    match dictGet (calcGet doc calcName) emitterName with
    | .error err => .error err
    | .ok selfVals =>
      match dictGet (calcGet o calcName) emitterName with
      | .error err => .error err
      | .ok otherVals => .ok (setDiffList selfVals otherVals)
  | none => dictGet (calcGet doc calcName) emitterName

/-- The per-calculator emitter kind table: `calc slug → emitter name →
_fluff_emitter` sentinel, standing for
`getattr(self._calculators[calc_name], emitter_name)._fluff_emitter`
(a missing name is a lookup failure). -/
def kindGet (kinds : List (String × List (String × String)))
    (calcName emitterName : String) : Except LookupErr String :=
  match kinds.lookup calcName with
  | none => .error .keyError
  | some m => dictGet m emitterName

/-- `IndicatorDocument._indicator_diff`: one `indicator_changes` entry per
changed emitter name. -/
def indicator_diff (kinds : List (String × List (String × String)))
    (doc : IndicatorDoc) (other : Option IndicatorDoc)
    (calcName : String) (emitterNames : List String) :
    Except LookupErr (List IndicatorChange) :=
  match emitterNames with
  | [] => .ok []
  | e :: rest =>
    match emitterValuesDiff doc other calcName e with
    | .error err => .error err
    | .ok valuesDiff =>
      match kindGet kinds calcName e with
      | .error err => .error err
      | .ok k =>
        match indicator_diff kinds doc other calcName rest with
        | .error err => .error err
        | .ok tail =>
          .ok ({ calculator := calcName, emitter := e, emitter_type := k,
                 values := valuesDiff } :: tail)

/-- The `indicator_changes` assembly loop of `diff` (lines 271-272). -/
def buildChanges (kinds : List (String × List (String × String)))
    (doc : IndicatorDoc) (other : Option IndicatorDoc)
    (diffKeys : List (String × List String)) :
    Except LookupErr (List IndicatorChange) :=
  match diffKeys with
  | [] => .ok []
  | (c, names) :: rest =>
    match indicator_diff kinds doc other c names with
    | .error err => .error err
    | .ok head =>
      match buildChanges kinds doc other rest with
      | .error err => .error err
      | .ok tail => .ok (head ++ tail)

/-- The list-comprehension core of `group_values=[self[g] for g in
self.group_by]`: dynamic field lookups, each a potential `KeyError`. -/
def lookupAll (fields : List (String × Int)) :
    List String → Except LookupErr (List Int)
  | [] => .ok []
  | g :: rest =>
    match fields.lookup g with
    | none => .error .keyError
    | some v =>
      match lookupAll fields rest with
      | .error err => .error err
      | .ok tail => .ok (v :: tail)

/-- `group_values=[self[g] for g in self.group_by]`. -/
def groupValues (doc : IndicatorDoc) : Except LookupErr (List Int) :=
  lookupAll doc.fields doc.groupBy

/-- `IndicatorDocument.diff`: `None` when no calculator has a changed
emitter, else the assembled descriptor (`database` is the constant
app label `'fluff'`). -/
def diffDoc (calcNames : List String)
    (kinds : List (String × List (String × String))) (docType : String)
    (doc : IndicatorDoc) (other : Option IndicatorDoc) :
    Except LookupErr (Option DiffDescriptor) :=
  let dk := computeDiffKeys calcNames doc other
  if dk.isEmpty then .ok none
  else
    match groupValues doc with
    | .error err => .error err
    | .ok gvals =>
      match buildChanges kinds doc other dk with
      | .error err => .error err
      | .ok changes =>
        .ok (some { database := "fluff", doc_type := docType,
                    group_names := doc.groupBy, group_values := gvals,
                    indicator_changes := changes })

/-! ## Result reader (`FluffResult._get`, reduced branch) -/

/-- The store's keyed range query, the consumed capability: all rows whose
key falls in the inclusive `[startkey, endkey]` range (keys modelled as
`Int`, each row carrying its reduce value). -/
def queryRows (db : List (Int × Int)) (startkey endkey : Int) :
    List (Int × Int) :=
  db.filter (fun kv => startkey ≤ kv.1 && kv.1 ≤ endkey)

/-- A reduced view query: CouchDB returns no rows at all over an empty
range, and a single aggregated row otherwise. -/
def reduceQuery (db : List (Int × Int)) (startkey endkey : Int) : List Int :=
  let rows := queryRows db startkey endkey
  if rows.isEmpty then [] else [rows.foldl (fun acc kv => acc + kv.2) 0]

/-- `FluffResult._get` with `reduce=True` (lines 179-183):
`q[0]['value']`, with the `IndexError` on an empty result caught and turned
into `0`. -/
def fluffGetReduce (db : List (Int × Int)) (startkey endkey : Int) : Int :=
  match reduceQuery db startkey endkey with
  | [] => 0
  | v :: _ => v

/-! ## Change pipeline (`FluffPillow.change_transform` / `change_transport`) -/

/-- Pipeline-level failures: the store's `ResourceNotFound`, any other
store failure, and a lookup failure escaping `calculate`. -/
inductive PipeError where
  | notFound
  | storeFailure
  | lookupFailure
deriving DecidableEq, Repr

/-- `FluffPillow.change_transform`: load the prior indicator document
(`ResourceNotFound` is caught and means "no prior document"; any other
store failure propagates), then recompute — on a fresh document when there
was none, otherwise on the loaded document with its prior state kept as the
first component. -/
def change_transform (calcs : List (String × CalcDef))
    (defaultGroupBy : List String) (indicatorId : String)
    (got : Except PipeError IndicatorDoc) (item : Item) :
    Except PipeError (Option IndicatorDoc × IndicatorDoc) :=
  match got with
  | .error .notFound =>
    match calculateDoc calcs defaultGroupBy (emptyDoc indicatorId) item with
    | .ok ind => .ok (none, ind)
    | .error _ => .error .lookupFailure
  | .error e => .error e
  | .ok d =>
    match calculateDoc calcs defaultGroupBy d item with
    | .ok ind => .ok (some d, ind)
    | .error _ => .error .lookupFailure

/-- `FluffPillow.change_transport` without the store write and the signal
dispatch (external capabilities): the diff of the recomputed document
against the prior snapshot. -/
def change_transport (calcNames : List String)
    (kinds : List (String × List (String × String))) (docType : String)
    (pair : Option IndicatorDoc × IndicatorDoc) :
    Except LookupErr (Option DiffDescriptor) :=
  diffDoc calcNames kinds docType pair.2 pair.1

/-- Modelled from the spec (section 4.5): the symmetric set difference
`self−other ∪ other−self` between two value sequences, deduplicated.  Kept
separate from the embedding of `_indicator_diff` so the two can be
compared. -/
def symmetricSetDiff (a b : List Int) : List Int :=
  setDiffList a b ++ setDiffList b a

/-- `Except.isOk` specialised to the embedding's lookup failures. -/
def isOkE {α : Type} : Except LookupErr α → Bool
  | .ok _ => true
  | .error _ => false

/-! ## Helper lemmas -/

theorem lookup_isSome_iff {β : Type} (m : List (String × β)) (k : String) :
    (m.lookup k).isSome = true ↔ k ∈ m.map Prod.fst := by
  induction m with
  | nil => simp [List.lookup]
  | cons p rest ih =>
    by_cases h : k = p.1
    · simp [List.lookup, h]
    · have hb : (k == p.1) = false := by simpa using h
      simp [List.lookup, hb, ih, h]

theorem mem_of_lookup_some {β : Type} {m : List (String × β)} {k : String}
    {v : β} (h : m.lookup k = some v) : (k, v) ∈ m := by
  induction m with
  | nil => simp [List.lookup] at h
  | cons p rest ih =>
    by_cases hk : k = p.1
    · subst hk
      simp [List.lookup] at h
      subst h
      exact List.mem_cons_self _ _
    · have hb : (k == p.1) = false := by simpa using hk
      simp [List.lookup, hb] at h
      exact List.mem_cons_of_mem _ (ih h)

theorem dictGet_ok_iff {β : Type} (m : List (String × β)) (k : String)
    (v : β) : dictGet m k = .ok v ↔ m.lookup k = some v := by
  unfold dictGet
  cases h : m.lookup k <;> simp

theorem dictGet_isOk {β : Type} (m : List (String × β)) (k : String)
    (v : β) (h : dictGet m k = .ok v) : (m.lookup k).isSome = true := by
  rw [dictGet_ok_iff] at h
  simp [h]

/-! ## C2: calculator construction -/

/-- C2 counterexample: a calculator whose single emitter is covered by an
explicit offsets entry, with `window=None`, is claimed to construct
successfully ("covered by offsets alone"); in the code
`Calculator.__init__` still raises, because `self.window` must be a
`timedelta` regardless of offsets coverage — and the error is the
window-type message, not one listing uncovered emitters. -/
theorem C2_offsets_alone_still_fails :
    (∀ e ∈ ["visits"], (([(("visits" : String), ((-7 : Int), (0 : Int)))].lookup e)).isSome) ∧
    initCalc ["visits"] [("visits", (-7, 0))] none =
      .error .windowMustBeTimedelta := by
  constructor
  · decide
  · rfl

theorem initCalc_none (es : List String) (offs : List (String × Int × Int)) :
    initCalc es offs none = .error .windowMustBeTimedelta := rfl

theorem initCalc_some_nonzero (es : List String)
    (offs : List (String × Int × Int)) (d : Int) (hd : d ≠ 0) :
    initCalc es offs (some d) = .ok ⟨d, offs, es⟩ := by
  have ht : windowTruthy (some d) = true := by simp [windowTruthy, hd]
  simp [initCalc, ht]

theorem initCalc_some_zero (es : List String)
    (offs : List (String × Int × Int)) :
    initCalc es offs (some 0) =
      (if (es.dedup.filter fun e => (offs.lookup e).isNone).isEmpty then
        .ok ⟨0, offs, es⟩
      else
        .error (.uncoveredEmitters
          (es.dedup.filter fun e => (offs.lookup e).isNone))) := by
  have ht : windowTruthy (some 0) = false := by simp [windowTruthy]
  simp [initCalc, ht]

theorem covered_iff_filter_isEmpty (es : List String)
    (offs : List (String × Int × Int)) :
    (es.dedup.filter fun e => (offs.lookup e).isNone).isEmpty = true ↔
      ∀ e ∈ es, (offs.lookup e).isSome := by
  rw [List.isEmpty_iff, List.filter_eq_nil_iff]
  constructor
  · intro h e he
    have := h e (List.mem_dedup.mpr he)
    cases hl : offs.lookup e <;> simp [hl] at this ⊢
  · intro h e he
    have := h e (List.mem_dedup.mp he)
    cases hl : offs.lookup e <;> simp [hl] at this ⊢

/-- C2 amended: construction succeeds iff the window is an actual
timedelta and, when that timedelta is zero (hence falsy), every declared
emitter has an offsets entry.  `window=None` always fails with the
window-type error, whatever the offsets; the error listing the uncovered
emitters is raised exactly when the window is a zero timedelta, and it
lists exactly the declared emitters missing from offsets. -/
theorem C2_construction_amended (es : List String)
    (offs : List (String × Int × Int)) (w : Option Int) :
    ((∃ c, initCalc es offs w = .ok c) ↔
      ∃ d, w = some d ∧ (d = 0 → ∀ e ∈ es, (offs.lookup e).isSome)) ∧
    initCalc es offs none = .error .windowMustBeTimedelta ∧
    (∀ names, initCalc es offs w = .error (.uncoveredEmitters names) →
      w = some 0 ∧ ∀ e, (e ∈ names ↔ e ∈ es ∧ (offs.lookup e).isNone)) := by
  refine ⟨?_, initCalc_none es offs, ?_⟩
  · cases w with
    | none => simp [initCalc_none]
    | some d =>
      by_cases hd : d = 0
      · subst hd
        rw [initCalc_some_zero]
        by_cases hcov : (es.dedup.filter fun e =>
            (offs.lookup e).isNone).isEmpty = true
        · rw [if_pos hcov]
          have hc := (covered_iff_filter_isEmpty es offs).mp hcov
          constructor
          · intro _
            exact ⟨0, rfl, fun _ => hc⟩
          · intro _
            exact ⟨⟨0, offs, es⟩, rfl⟩
        · rw [if_neg hcov]
          constructor
          · rintro ⟨c, hc⟩
            exact absurd hc (by simp)
          · rintro ⟨d', hd', hcv⟩
            have hd0 : d' = 0 := by injection hd' with h; exact h.symm
            subst hd0
            exact absurd ((covered_iff_filter_isEmpty es offs).mpr (hcv rfl))
              hcov
      · rw [initCalc_some_nonzero es offs d hd]
        constructor
        · intro _
          exact ⟨d, rfl, fun h => absurd h hd⟩
        · intro _
          exact ⟨⟨d, offs, es⟩, rfl⟩
  · intro names h
    cases w with
    | none => rw [initCalc_none] at h; exact absurd h (by simp)
    | some d =>
      by_cases hd : d = 0
      · subst hd
        rw [initCalc_some_zero] at h
        by_cases hcov : (es.dedup.filter fun e =>
            (offs.lookup e).isNone).isEmpty = true
        · rw [if_pos hcov] at h
          exact absurd h (by simp)
        · rw [if_neg hcov] at h
          have hnames : names =
              es.dedup.filter fun e => (offs.lookup e).isNone := by
            have := h
            simp at this
            exact this.symm
          subst hnames
          refine ⟨rfl, fun e => ?_⟩
          simp [List.mem_filter, List.mem_dedup]
      · rw [initCalc_some_nonzero es offs d hd] at h
        exact absurd h (by simp)

/-- Witness for `C2_construction_amended` at a concrete configuration:
a zero window with emitter `b` missing from offsets is rejected with the
error listing exactly `b`. -/
theorem C2_construction_amended_witness :
    initCalc ["a", "b"] [("a", (1 : Int), (2 : Int))] (some 0) =
      .error (.uncoveredEmitters ["b"]) ∧
    (some (0 : Int) = some 0 ∧ ∀ e, (e ∈ ["b"] ↔
      e ∈ ["a", "b"] ∧
        (([(("a" : String), ((1 : Int), (2 : Int)))].lookup e)).isNone)) := by
  refine ⟨by rfl, ?_⟩
  exact (C2_construction_amended ["a", "b"] [("a", 1, 2)] (some 0)).2.2
    ["b"] (by rfl)

/-! ## C7: window resolution -/

/-- C7: for every successfully constructed calculator, `get_window`
returns `(now + start, now + end)` when the emitter has an offsets entry
and `(now − window, now)` otherwise. -/
theorem C7_get_window (es : List String) (offs : List (String × Int × Int))
    (w : Option Int) (c : CalcConfig) (h : initCalc es offs w = .ok c)
    (now : Int) (name : String) :
    (∀ s e, offs.lookup name = some (s, e) →
      get_window c now name = (now + s, now + e)) ∧
    (offs.lookup name = none → get_window c now name = (now - c.window, now)) := by
  have hoffs : c.offsets = offs := by
    cases w with
    | none => rw [initCalc_none] at h; exact absurd h (by simp)
    | some d =>
      by_cases hd : d = 0
      · subst hd
        rw [initCalc_some_zero] at h
        split at h
        · cases h; rfl
        · exact absurd h (by simp)
      · rw [initCalc_some_nonzero es offs d hd] at h
        cases h
        rfl
  constructor
  · intro s e hl
    simp [get_window, hoffs, hl]
  · intro hl
    simp [get_window, hoffs, hl]

/-- Witness for `C7_get_window` at a concrete calculator with one offsets
entry. -/
theorem C7_get_window_witness :
    initCalc ["e"] [("e", (1 : Int), (2 : Int))] (some 7) =
      .ok ⟨7, [("e", 1, 2)], ["e"]⟩ ∧
    (∀ s en, ([(("e" : String), ((1 : Int), (2 : Int)))].lookup "e") = some (s, en) →
      get_window ⟨7, [("e", 1, 2)], ["e"]⟩ 100 "e" = (100 + s, 100 + en)) ∧
    (([(("e" : String), ((1 : Int), (2 : Int)))].lookup "e") = none →
      get_window ⟨7, [("e", 1, 2)], ["e"]⟩ 100 "e" = (100 - (7 : Int), 100)) := by
  refine ⟨by rfl, ?_⟩
  exact C7_get_window ["e"] [("e", 1, 2)] (some 7) ⟨7, [("e", 1, 2)], ["e"]⟩
    (by rfl) 100 "e"

/-! ## C9: reduced read on an empty key range -/

/-- C9: a reduced read over a key range containing no entries returns `0`
and never raises — the `IndexError` on `q[0]` is caught and mapped to `0`
(`FluffResult._get`, lines 179-183). -/
theorem C9_reduced_empty_range (db : List (Int × Int)) (s e : Int)
    (h : ∀ kv ∈ db, ¬(s ≤ kv.1 ∧ kv.1 ≤ e)) :
    fluffGetReduce db s e = 0 := by
  have hrows : queryRows db s e = [] := by
    rw [queryRows, List.filter_eq_nil_iff]
    intro kv hkv
    simpa using h kv hkv
  simp [fluffGetReduce, reduceQuery, hrows]

/-- Witness for `C9_reduced_empty_range`: a store with one row whose key
`5` lies outside the queried range `[10, 20]`. -/
theorem C9_reduced_empty_range_witness :
    (∀ kv ∈ [((5 : Int), (3 : Int))], ¬((10 : Int) ≤ kv.1 ∧ kv.1 ≤ 20)) ∧
    fluffGetReduce [(5, 3)] 10 20 = 0 :=
  ⟨by decide, C9_reduced_empty_range [(5, 3)] 10 20 (by decide)⟩

/-! ## C4: a failed filter blanks every date/null emitter -/

/-- C4: when an item fails at least one declared filter predicate,
`calculate` binds every `date`/`null` emitter to the empty sequence,
whatever the emitter methods would produce. -/
theorem C4_failed_filter_empty (c : CalcDef) (item : Item) (f : Item → Bool)
    (hf : f ∈ c.filters) (hfail : f item = false) :
    (∀ p ∈ calculate c item, p.2 = ([] : List Int)) ∧
    (∀ slug ed, (slug, ed) ∈ c.emitters →
      (ed.kind = "date" ∨ ed.kind = "null") →
      (slug, ([] : List Int)) ∈ calculate c item) := by
  have hall : c.filters.all (fun g => g item) = false := by
    rw [← Bool.not_eq_true, List.all_eq_true]
    intro hcontra
    have := hcontra f hf
    rw [hfail] at this
    exact Bool.false_ne_true this
  have hpasses : (c.baseFilter item && c.filters.all (fun g => g item)) =
      false := by
    rw [hall, Bool.and_false]
  constructor
  · intro p hp
    rw [calculate] at hp
    simp only [hpasses] at hp
    rw [List.mem_filterMap] at hp
    obtain ⟨a, _, ha⟩ := hp
    by_cases hk : a.2.kind = "date" ∨ a.2.kind = "null"
    · rw [if_pos hk] at ha
      cases ha
      rfl
    · rw [if_neg hk] at ha
      cases ha
  · intro slug ed hmem hk
    rw [calculate]
    simp only [hpasses]
    rw [List.mem_filterMap]
    exact ⟨(slug, ed), hmem, by rw [if_pos hk]; simp⟩

/-- Witness for `C4_failed_filter_empty`: a calculator whose single filter
rejects everything and whose `date` emitter would emit `[7]`. -/
theorem C4_failed_filter_empty_witness :
    (fun (_ : Item) => false) ∈
      (CalcDef.mk (fun _ => true) [fun _ => false]
        [("e", ⟨"date", fun _ => [7]⟩)]).filters ∧
    (fun (_ : Item) => false) ⟨"i", []⟩ = false ∧
    ((∀ p ∈ calculate (CalcDef.mk (fun _ => true) [fun _ => false]
        [("e", ⟨"date", fun _ => [7]⟩)]) ⟨"i", []⟩, p.2 = ([] : List Int)) ∧
     (∀ slug ed, (slug, ed) ∈ (CalcDef.mk (fun _ => true) [fun _ => false]
        [("e", ⟨"date", fun _ => [7]⟩)]).emitters →
      (ed.kind = "date" ∨ ed.kind = "null") →
      (slug, ([] : List Int)) ∈ calculate (CalcDef.mk (fun _ => true)
        [fun _ => false] [("e", ⟨"date", fun _ => [7]⟩)]) ⟨"i", []⟩)) :=
  ⟨List.Mem.head _, rfl,
    C4_failed_filter_empty _ ⟨"i", []⟩ _ (List.Mem.head _) rfl⟩

/-! ## C3: merged emitter/filter sets grow monotonically -/

theorem mem_mergedEmittersList_of_mem {p : CalcClass} {ps : List CalcClass}
    (hp : p ∈ ps) : ∀ x ∈ mergedEmitters p, x ∈ mergedEmittersList ps := by
  induction ps with
  | nil => cases hp
  | cons q qs ih =>
    intro x hx
    rw [mergedEmittersList]
    rcases List.mem_cons.mp hp with h | h
    · subst h
      exact List.mem_append_left _ hx
    · exact List.mem_append_right _ (ih h x hx)

theorem mem_mergedFiltersList_of_mem {p : CalcClass} {ps : List CalcClass}
    (hp : p ∈ ps) : ∀ x ∈ mergedFilters p, x ∈ mergedFiltersList ps := by
  induction ps with
  | nil => cases hp
  | cons q qs ih =>
    intro x hx
    rw [mergedFiltersList]
    rcases List.mem_cons.mp hp with h | h
    · subst h
      exact List.mem_append_left _ hx
    · exact List.mem_append_right _ (ih h x hx)

/-- C3: along any chain of derivation, the merged emitter set of a subtype
contains every ancestor's merged emitter set, and likewise for filters —
the metaclass union is monotonic and re-tagging never removes a name. -/
theorem C3_merged_sets_superset (a c : CalcClass) (h : Ancestor a c) :
    (∀ x ∈ mergedEmitters a, x ∈ mergedEmitters c) ∧
    (∀ x ∈ mergedFilters a, x ∈ mergedFilters c) := by
  induction h with
  | parent a hp =>
    constructor
    · intro x hx
      rw [mergedEmitters]
      exact List.mem_append_right _ (mem_mergedEmittersList_of_mem hp x hx)
    · intro x hx
      rw [mergedFilters]
      exact List.mem_append_right _ (mem_mergedFiltersList_of_mem hp x hx)
  | step a p hp _ ih =>
    constructor
    · intro x hx
      rw [mergedEmitters]
      exact List.mem_append_right _
        (mem_mergedEmittersList_of_mem hp x (ih.1 x hx))
    · intro x hx
      rw [mergedFilters]
      exact List.mem_append_right _
        (mem_mergedFiltersList_of_mem hp x (ih.2 x hx))

/-- Witness for `C3_merged_sets_superset`: a two-level hierarchy where the
subclass re-tags nothing yet keeps the base's emitter and filter. -/
theorem C3_merged_sets_superset_witness :
    (∀ x ∈ mergedEmitters (.mk ["e1"] ["f1"] []),
      x ∈ mergedEmitters (.mk ["e2"] [] [.mk ["e1"] ["f1"] []])) ∧
    (∀ x ∈ mergedFilters (.mk ["e1"] ["f1"] []),
      x ∈ mergedFilters (.mk ["e2"] [] [.mk ["e1"] ["f1"] []])) :=
  C3_merged_sets_superset (.mk ["e1"] ["f1"] [])
    (.mk ["e2"] [] [.mk ["e1"] ["f1"] []])
    (Ancestor.parent _ (List.Mem.head _))

/-! ## C6: diffing a document against itself is a no-op -/

theorem shallow_dict_diff_self (m : EmitterMap) :
    shallow_dict_diff m m = none ∨ shallow_dict_diff m m = some [] := by
  by_cases hm : m.isEmpty = true
  · left
    simp [shallow_dict_diff, hm]
  · right
    have hm' : m.isEmpty = false := Bool.eq_false_iff.mpr hm
    rw [shallow_dict_diff]
    simp only [hm', Bool.and_self, Bool.or_self, Bool.false_and,
      Bool.false_or, if_false]
    have hadded : (((m.map Prod.fst).dedup).filter
        (fun k => k ∉ ((m.map Prod.fst).dedup).filter
          (fun k => k ∈ (m.map Prod.fst).dedup))) = [] := by
      rw [List.filter_eq_nil_iff]
      intro k hk
      simp [List.mem_filter, hk]
    have hchanged : ((((m.map Prod.fst).dedup).filter
        (fun k => k ∈ (m.map Prod.fst).dedup)).filter
          (fun k => m.lookup k ≠ m.lookup k)) = [] := by
      rw [List.filter_eq_nil_iff]
      intro k _
      simp
    rw [hadded, hchanged]
    simp

theorem computeDiffKeys_self (calcNames : List String) (doc : IndicatorDoc) :
    computeDiffKeys calcNames doc (some doc) = [] := by
  induction calcNames with
  | nil => rfl
  | cons c rest ih =>
    rw [computeDiffKeys]
    rcases shallow_dict_diff_self (calcGet doc c) with h | h <;> simp [h, ih]

/-- C6: diffing an indicator document against a previous version with
identical state returns nothing — `diff(document, document)` is a no-op. -/
theorem C6_diff_self (calcNames : List String)
    (kinds : List (String × List (String × String))) (docType : String)
    (doc : IndicatorDoc) :
    diffDoc calcNames kinds docType doc (some doc) = .ok none := by
  simp [diffDoc, computeDiffKeys_self]

/-! ## C1: the value diff against a previous version is one-sided -/

/-- C1: at the spec's own example — previous `[1,2,3]`, current `[2,3,4]`
— the code's diff for emitter `e` carries `values = [4]`
(`set(current) - set(previous)`, line 280), not the symmetric difference
`{1, 4}` that the spec and the method's docstring ("added / removed /
changed") describe: the removed value `1` is dropped. -/
theorem C1_value_diff_one_sided :
    diffDoc ["C"] [("C", [("e", "date")])] "T"
      ⟨[("C", [("e", [2, 3, 4])])], [], [], "cur"⟩
      (some ⟨[("C", [("e", [1, 2, 3])])], [], [], "prev"⟩) =
      .ok (some ⟨"fluff", "T", [], [], [⟨"C", "e", "date", [4]⟩]⟩) ∧
    symmetricSetDiff [2, 3, 4] [1, 2, 3] = [4, 1] :=
  ⟨rfl, rfl⟩

/-! ## C8: NotFound while loading the prior document is not an error -/

/-- C8: `change_transform` on a `ResourceNotFound` from the store does not
propagate the failure: it recomputes on a fresh default document and hands
`None` on as the previous version, so the later diff runs against no
previous version. -/
theorem C8_notfound_nonfatal (calcs : List (String × CalcDef))
    (gb : List String) (indicatorId : String) (item : Item) :
    change_transform calcs gb indicatorId (.error .notFound) item ≠
      .error .notFound ∧
    change_transform calcs gb indicatorId (.error .notFound) item =
      (match calculateDoc calcs gb (emptyDoc indicatorId) item with
       | .ok ind => .ok (none, ind)
       | .error _ => .error .lookupFailure) ∧
    (∀ prev ind,
      change_transform calcs gb indicatorId (.error .notFound) item =
        .ok (prev, ind) → prev = none) := by
  refine ⟨?_, rfl, ?_⟩
  · rw [change_transform]
    cases h : calculateDoc calcs gb (emptyDoc indicatorId) item <;> simp [h]
  · intro prev ind hok
    rw [change_transform] at hok
    cases h : calculateDoc calcs gb (emptyDoc indicatorId) item <;>
      rw [h] at hok <;> simp at hok
    exact hok.1.symm

/-- Witness for `C8_notfound_nonfatal` at a concrete (empty) calculator
set and item. -/
theorem C8_notfound_nonfatal_witness :
    change_transform [] [] "MyInd-doc1" (.error .notFound) ⟨"doc1", []⟩ ≠
      .error .notFound ∧
    change_transform [] [] "MyInd-doc1" (.error .notFound) ⟨"doc1", []⟩ =
      (match calculateDoc [] [] (emptyDoc "MyInd-doc1") ⟨"doc1", []⟩ with
       | .ok ind => .ok (none, ind)
       | .error _ => .error .lookupFailure) ∧
    (∀ prev ind,
      change_transform [] [] "MyInd-doc1" (.error .notFound) ⟨"doc1", []⟩ =
        .ok (prev, ind) → prev = none) :=
  C8_notfound_nonfatal [] [] "MyInd-doc1" ⟨"doc1", []⟩

/-! ## C10: mismatched key sets make the value-diff step raise -/

theorem shallow_mismatch_mem (left right : EmitterMap) (e : String)
    (hmm : (left.lookup e).isSome ≠ (right.lookup e).isSome) :
    ∃ names, shallow_dict_diff left right = some names ∧ e ∈ names := by
  by_cases hl : left.isEmpty = true
  · have hleft : left = [] := List.isEmpty_iff.mp hl
    subst hleft
    by_cases hr : right.isEmpty = true
    · have hright : right = [] := List.isEmpty_iff.mp hr
      subst hright
      exact absurd rfl hmm
    · have hr' : right.isEmpty = false := Bool.eq_false_iff.mpr hr
      refine ⟨right.map Prod.fst, ?_, ?_⟩
      · simp [shallow_dict_diff, hr']
      · have hsome : (right.lookup e).isSome = true := by
          cases hs : (right.lookup e).isSome
          · exact absurd (by simp [List.lookup, hs]) hmm
          · rfl
        exact (lookup_isSome_iff right e).mp hsome
  · have hl' : left.isEmpty = false := Bool.eq_false_iff.mpr hl
    by_cases hr : right.isEmpty = true
    · have hright : right = [] := List.isEmpty_iff.mp hr
      subst hright
      refine ⟨left.map Prod.fst, ?_, ?_⟩
      · simp [shallow_dict_diff, hl']
      · have hsome : (left.lookup e).isSome = true := by
          cases hs : (left.lookup e).isSome
          · exact absurd (by simp [List.lookup, hs]) hmm
          · rfl
        exact (lookup_isSome_iff left e).mp hsome
    · have hr' : right.isEmpty = false := Bool.eq_false_iff.mpr hr
      rw [shallow_dict_diff]
      simp only [hl', hr', Bool.false_and, Bool.and_false, Bool.false_or,
        if_false]
      refine ⟨_, rfl, ?_⟩
      cases hs : (left.lookup e).isSome with
      | true =>
        have hrs : (right.lookup e).isSome = false := by
          cases hx : (right.lookup e).isSome
          · rfl
          · rw [hs, hx] at hmm
            exact absurd rfl hmm
        have heL : e ∈ (left.map Prod.fst).dedup :=
          List.mem_dedup.mpr ((lookup_isSome_iff left e).mp hs)
        have heR : e ∉ (right.map Prod.fst).dedup := by
          intro hcontra
          have := (lookup_isSome_iff right e).mpr
            (List.mem_dedup.mp hcontra)
          rw [hrs] at this
          exact Bool.false_ne_true this
        have hni : e ∉ ((right.map Prod.fst).dedup).filter
            (fun k => k ∈ (left.map Prod.fst).dedup) := by
          intro hcontra
          exact heR (List.mem_filter.mp hcontra).1
        refine List.mem_append_left _ (List.mem_append_right _ ?_)
        rw [List.mem_filter]
        exact ⟨heL, by simpa using hni⟩
      | false =>
        have hrs : (right.lookup e).isSome = true := by
          cases hx : (right.lookup e).isSome
          · rw [hs, hx] at hmm
            exact absurd rfl hmm
          · rfl
        have heR : e ∈ (right.map Prod.fst).dedup :=
          List.mem_dedup.mpr ((lookup_isSome_iff right e).mp hrs)
        have heL : e ∉ (left.map Prod.fst).dedup := by
          intro hcontra
          have := (lookup_isSome_iff left e).mpr
            (List.mem_dedup.mp hcontra)
          rw [hs] at this
          exact Bool.false_ne_true this
        have hni : e ∉ ((right.map Prod.fst).dedup).filter
            (fun k => k ∈ (left.map Prod.fst).dedup) := by
          intro hcontra
          exact heL (by simpa using (List.mem_filter.mp hcontra).2)
        refine List.mem_append_left _ (List.mem_append_left _ ?_)
        rw [List.mem_filter]
        exact ⟨heR, by simpa using hni⟩

theorem mem_computeDiffKeys_of_changed (calcNames : List String)
    (doc other : IndicatorDoc) (c : String) (names : List String)
    (hc : c ∈ calcNames)
    (h : shallow_dict_diff (calcGet doc c) (calcGet other c) = some names)
    (hne : names ≠ []) :
    (c, names) ∈ computeDiffKeys calcNames doc (some other) := by
  induction calcNames with
  | nil => cases hc
  | cons c0 rest ih =>
    rw [computeDiffKeys]
    rcases List.mem_cons.mp hc with hh | hh
    · subst hh
      rw [h]
      have hni : names.isEmpty = false := by
        cases names
        · exact absurd rfl hne
        · rfl
      simp only [hni, Bool.false_eq_true, if_false]
      exact List.mem_cons_self _ _
    · have htail := ih hh
      cases hsd : shallow_dict_diff (calcGet doc c0) (calcGet other c0) with
      | none => simpa using htail
      | some ns =>
        by_cases hns : ns.isEmpty = true <;>
          simp only [hns, if_true, if_false] <;>
          first
            | exact htail
            | exact List.mem_cons_of_mem _ htail

theorem indicator_diff_ok_all
    (kinds : List (String × List (String × String))) (doc : IndicatorDoc)
    (other : Option IndicatorDoc) (c : String) (names : List String)
    (cs : List IndicatorChange)
    (h : indicator_diff kinds doc other c names = .ok cs) :
    ∀ n ∈ names, ∃ vs, emitterValuesDiff doc other c n = .ok vs := by
  induction names generalizing cs with
  | nil =>
    intro n hn
    cases hn
  | cons e rest ih =>
    intro n hn
    rw [indicator_diff] at h
    cases hv : emitterValuesDiff doc other c e with
    | error err =>
      rw [hv] at h
      cases h
    | ok vs =>
      rw [hv] at h
      rcases List.mem_cons.mp hn with hh | hh
      · subst hh
        exact ⟨vs, hv⟩
      · cases hk : kindGet kinds c e with
        | error err =>
          rw [hk] at h
          cases h
        | ok k =>
          rw [hk] at h
          cases ht : indicator_diff kinds doc other c rest with
          | error err =>
            rw [ht] at h
            cases h
          | ok tail => exact ih tail ht n hh

theorem buildChanges_ok_all
    (kinds : List (String × List (String × String))) (doc : IndicatorDoc)
    (other : Option IndicatorDoc) (dk : List (String × List String))
    (chs : List IndicatorChange)
    (h : buildChanges kinds doc other dk = .ok chs) :
    ∀ p ∈ dk, ∃ cs, indicator_diff kinds doc other p.1 p.2 = .ok cs := by
  induction dk generalizing chs with
  | nil =>
    intro p hp
    cases hp
  | cons q rest ih =>
    intro p hp
    obtain ⟨c, names⟩ := q
    rw [buildChanges] at h
    cases hid : indicator_diff kinds doc other c names with
    | error err =>
      rw [hid] at h
      cases h
    | ok head =>
      rw [hid] at h
      rcases List.mem_cons.mp hp with hh | hh
      · subst hh
        exact ⟨head, hid⟩
      · cases ht : buildChanges kinds doc other rest with
        | error err =>
          rw [ht] at h
          cases h
        | ok tail => exact ih tail ht p hh

theorem diffDoc_ok_entries (calcNames : List String)
    (kinds : List (String × List (String × String))) (docType : String)
    (doc : IndicatorDoc) (other : Option IndicatorDoc)
    (r : Option DiffDescriptor)
    (h : diffDoc calcNames kinds docType doc other = .ok r) :
    ∀ p ∈ computeDiffKeys calcNames doc other, ∃ cs,
      indicator_diff kinds doc other p.1 p.2 = .ok cs := by
  rw [diffDoc] at h
  by_cases hdk : (computeDiffKeys calcNames doc other).isEmpty = true
  · intro p hp
    rw [List.isEmpty_iff.mp hdk] at hp
    cases hp
  · have hdk' : (computeDiffKeys calcNames doc other).isEmpty = false :=
      Bool.eq_false_iff.mpr hdk
    simp only [hdk', if_false] at h
    cases hg : groupValues doc with
    | error err =>
      rw [hg] at h
      cases h
    | ok gv =>
      rw [hg] at h
      cases hb : buildChanges kinds doc other
          (computeDiffKeys calcNames doc other) with
      | error err =>
        rw [hb] at h
        cases h
      | ok chs => exact buildChanges_ok_all kinds doc other _ chs hb

theorem emitterValuesDiff_ok_both (doc o : IndicatorDoc) (c e : String)
    (vs : List Int) (h : emitterValuesDiff doc (some o) c e = .ok vs) :
    ((calcGet doc c).lookup e).isSome = true ∧
    ((calcGet o c).lookup e).isSome = true := by
  rw [emitterValuesDiff] at h
  cases h1 : dictGet (calcGet doc c) e with
  | error err =>
    rw [h1] at h
    cases h
  | ok sv =>
    rw [h1] at h
    cases h2 : dictGet (calcGet o c) e with
    | error err =>
      rw [h2] at h
      cases h
    | ok ov => exact ⟨dictGet_isOk _ _ _ h1, dictGet_isOk _ _ _ h2⟩

/-- C10: when some calculator's current and previous emitter dictionaries
have different key sets — an emitter name present on exactly one side —
`diff` raises a `KeyError` while assembling the change entries instead of
returning a descriptor: `_indicator_diff` indexes both documents by every
changed emitter name without guarding for absence. -/
theorem C10_keyset_mismatch_raises (calcNames : List String)
    (kinds : List (String × List (String × String))) (docType : String)
    (doc other : IndicatorDoc) (c e : String) (hc : c ∈ calcNames)
    (hmm : ((calcGet doc c).lookup e).isSome ≠
      ((calcGet other c).lookup e).isSome) :
    diffDoc calcNames kinds docType doc (some other) = .error .keyError := by
  cases hres : diffDoc calcNames kinds docType doc (some other) with
  | error err =>
    cases err
    rfl
  | ok r =>
    exfalso
    obtain ⟨names, hsd, hmem⟩ :=
      shallow_mismatch_mem (calcGet doc c) (calcGet other c) e hmm
    have hne : names ≠ [] := by
      intro hnil
      rw [hnil] at hmem
      cases hmem
    have hdk := mem_computeDiffKeys_of_changed calcNames doc other c names
      hc hsd hne
    obtain ⟨cs, hid⟩ := diffDoc_ok_entries calcNames kinds docType doc
      (some other) r hres (c, names) hdk
    obtain ⟨vs, hev⟩ := indicator_diff_ok_all kinds doc (some other) c names
      cs hid e hmem
    obtain ⟨h1, h2⟩ := emitterValuesDiff_ok_both doc other c e vs hev
    rw [h1, h2] at hmm
    exact hmm rfl

/-- Witness for `C10_keyset_mismatch_raises`: emitter `e` exists in the
current document but not in the previous one, and `diff` fails with a
`KeyError` rather than returning a descriptor. -/
theorem C10_keyset_mismatch_raises_witness :
    ("C" : String) ∈ ["C"] ∧
    ((calcGet ⟨[("C", [("e", [1])])], [], [], "cur"⟩ "C").lookup "e").isSome ≠
      ((calcGet ⟨[("C", [])], [], [], "prev"⟩ "C").lookup "e").isSome ∧
    diffDoc ["C"] [("C", [("e", "date")])] "T"
      ⟨[("C", [("e", [1])])], [], [], "cur"⟩
      (some ⟨[("C", [])], [], [], "prev"⟩) = .error .keyError :=
  ⟨List.Mem.head _, by decide,
    C10_keyset_mismatch_raises ["C"] [("C", [("e", "date")])] "T"
      ⟨[("C", [("e", [1])])], [], [], "cur"⟩ ⟨[("C", [])], [], [], "prev"⟩
      "C" "e" (List.Mem.head _) (by decide)⟩

/-! ## C5: diff against no previous version -/

theorem mem_computeDiffKeys_none (calcNames : List String)
    (doc : IndicatorDoc) (c : String) (names : List String) :
    (c, names) ∈ computeDiffKeys calcNames doc none ↔
      c ∈ calcNames ∧ names = nonemptyNames (calcGet doc c) ∧
        names ≠ [] := by
  induction calcNames with
  | nil => simp [computeDiffKeys]
  | cons c0 rest ih =>
    rw [computeDiffKeys]
    by_cases h0 : (nonemptyNames (calcGet doc c0)).isEmpty = true
    · simp only [h0, if_true]
      rw [ih]
      constructor
      · rintro ⟨hc, hn, hne⟩
        exact ⟨List.mem_cons_of_mem _ hc, hn, hne⟩
      · rintro ⟨hc, hn, hne⟩
        rcases List.mem_cons.mp hc with hh | hh
        · subst hh
          rw [List.isEmpty_iff.mp h0] at hn
          exact absurd hn hne
        · exact ⟨hh, hn, hne⟩
    · have h0' : (nonemptyNames (calcGet doc c0)).isEmpty = false :=
        Bool.eq_false_iff.mpr h0
      simp only [h0', Bool.false_eq_true, if_false, List.mem_cons]
      rw [ih]
      constructor
      · rintro (hh | ⟨hc, hn, hne⟩)
        · have hc0 : c = c0 ∧ names = nonemptyNames (calcGet doc c0) := by
            constructor
            · exact congrArg Prod.fst hh
            · exact congrArg Prod.snd hh
          obtain ⟨hc0a, hc0b⟩ := hc0
          subst hc0a
          refine ⟨Or.inl rfl, hc0b, ?_⟩
          rw [hc0b]
          intro hnil
          rw [hnil] at h0'
          simp at h0'
        · exact ⟨Or.inr hc, hn, hne⟩
      · rintro ⟨hc, hn, hne⟩
        rcases hc with hh | hh
        · subst hh
          left
          rw [hn]
        · right
          exact ⟨hh, hn, hne⟩

theorem mem_nonemptyNames_iff (m : EmitterMap) (n : String) :
    n ∈ nonemptyNames m ↔ ∃ vs, (n, vs) ∈ m ∧ vs ≠ [] := by
  rw [nonemptyNames]
  constructor
  · intro hn
    obtain ⟨p, hp, hfst⟩ := List.mem_map.mp hn
    obtain ⟨hpm, hpne⟩ := List.mem_filter.mp hp
    refine ⟨p.2, ?_, ?_⟩
    · rw [← hfst]
      exact hpm
    · intro hnil
      rw [hnil] at hpne
      simp at hpne
  · rintro ⟨vs, hmem, hne⟩
    refine List.mem_map.mpr ⟨(n, vs), List.mem_filter.mpr ⟨hmem, ?_⟩, rfl⟩
    cases vs
    · exact absurd rfl hne
    · rfl

theorem lookupAll_ok (fields : List (String × Int)) (gs : List String)
    (h : ∀ g ∈ gs, (fields.lookup g).isSome = true) :
    ∃ vs, lookupAll fields gs = .ok vs := by
  induction gs with
  | nil => exact ⟨[], rfl⟩
  | cons g rest ih =>
    obtain ⟨v, hv⟩ := Option.isSome_iff_exists.mp
      (h g (List.mem_cons_self _ _))
    obtain ⟨tail, htail⟩ := ih (fun g' hg' =>
      h g' (List.mem_cons_of_mem _ hg'))
    refine ⟨v :: tail, ?_⟩
    rw [lookupAll, hv, htail]

theorem indicator_diff_none_ok
    (kinds : List (String × List (String × String))) (doc : IndicatorDoc)
    (c : String) (names : List String)
    (hvals : ∀ n ∈ names, ((calcGet doc c).lookup n).isSome = true)
    (hkinds : ∀ n ∈ names, isOkE (kindGet kinds c n) = true) :
    ∃ cs, indicator_diff kinds doc none c names = .ok cs ∧
      ∀ n vs, n ∈ names → (calcGet doc c).lookup n = some vs →
        ∃ k, (⟨c, n, k, vs⟩ : IndicatorChange) ∈ cs := by
  induction names with
  | nil =>
    refine ⟨[], rfl, ?_⟩
    intro n vs hn
    cases hn
  | cons e rest ih =>
    obtain ⟨vs0, hvs0⟩ := Option.isSome_iff_exists.mp
      (hvals e (List.mem_cons_self _ _))
    have hev : emitterValuesDiff doc none c e = .ok vs0 := by
      rw [emitterValuesDiff]
      exact (dictGet_ok_iff _ _ _).mpr hvs0
    obtain ⟨k, hk⟩ : ∃ k, kindGet kinds c e = .ok k := by
      have h2 := hkinds e (List.mem_cons_self _ _)
      cases hkk : kindGet kinds c e with
      | error err =>
        rw [hkk] at h2
        simp [isOkE] at h2
      | ok k => exact ⟨k, rfl⟩
    obtain ⟨tail, htail, hmemtail⟩ :=
      ih (fun n hn => hvals n (List.mem_cons_of_mem _ hn))
        (fun n hn => hkinds n (List.mem_cons_of_mem _ hn))
    refine ⟨⟨c, e, k, vs0⟩ :: tail, ?_, ?_⟩
    · rw [indicator_diff, hev, hk, htail]
    · intro n vs hn hvs
      rcases List.mem_cons.mp hn with hh | hh
      · subst hh
        rw [hvs0] at hvs
        have : vs0 = vs := by injection hvs
        subst this
        exact ⟨k, List.mem_cons_self _ _⟩
      · obtain ⟨k', hk'⟩ := hmemtail n vs hh hvs
        exact ⟨k', List.mem_cons_of_mem _ hk'⟩

theorem buildChanges_none_ok
    (kinds : List (String × List (String × String))) (doc : IndicatorDoc)
    (dk : List (String × List String))
    (hvals : ∀ p ∈ dk, ∀ n ∈ p.2, ((calcGet doc p.1).lookup n).isSome = true)
    (hkinds : ∀ p ∈ dk, ∀ n ∈ p.2, isOkE (kindGet kinds p.1 n) = true) :
    ∃ chs, buildChanges kinds doc none dk = .ok chs ∧
      ∀ p ∈ dk, ∀ n ∈ p.2, ∀ vs, (calcGet doc p.1).lookup n = some vs →
        ∃ k, (⟨p.1, n, k, vs⟩ : IndicatorChange) ∈ chs := by
  induction dk with
  | nil =>
    refine ⟨[], rfl, ?_⟩
    intro p hp
    cases hp
  | cons q rest ih =>
    obtain ⟨c, names⟩ := q
    obtain ⟨cs, hcs, hmem1⟩ := indicator_diff_none_ok kinds doc c names
      (fun n hn => hvals (c, names) (List.mem_cons_self _ _) n hn)
      (fun n hn => hkinds (c, names) (List.mem_cons_self _ _) n hn)
    obtain ⟨tail, htail, hmem2⟩ := ih
      (fun p hp => hvals p (List.mem_cons_of_mem _ hp))
      (fun p hp => hkinds p (List.mem_cons_of_mem _ hp))
    refine ⟨cs ++ tail, ?_, ?_⟩
    · rw [buildChanges, hcs, htail]
    · intro p hp n hn vs hvs
      rcases List.mem_cons.mp hp with hh | hh
      · subst hh
        obtain ⟨k, hk⟩ := hmem1 n vs hn hvs
        exact ⟨k, List.mem_append_left _ hk⟩
      · obtain ⟨k, hk⟩ := hmem2 p hh n hn vs hvs
        exact ⟨k, List.mem_append_right _ hk⟩

/-- C5: diffing a document with at least one non-empty emitter sequence
against no previous version returns a descriptor whose changes include
every emitter with a non-empty sequence, each carrying the full current
emitted sequence as its values. -/
theorem C5_diff_without_previous (calcNames : List String)
    (kinds : List (String × List (String × String))) (docType : String)
    (doc : IndicatorDoc)
    (hkinds : ∀ c ∈ calcNames, ∀ p ∈ calcGet doc c,
      isOkE (kindGet kinds c p.1) = true)
    (hgroup : ∀ g ∈ doc.groupBy, (doc.fields.lookup g).isSome = true)
    (hne : ∃ c ∈ calcNames, ∃ p ∈ calcGet doc c, p.2 ≠ ([] : List Int)) :
    ∃ d, diffDoc calcNames kinds docType doc none = .ok (some d) ∧
      ∀ c ∈ calcNames, ∀ em vs, (calcGet doc c).lookup em = some vs →
        vs ≠ [] →
        ∃ k, (⟨c, em, k, vs⟩ : IndicatorChange) ∈ d.indicator_changes := by
  obtain ⟨c0, hc0, p0, hp0, hp0ne⟩ := hne
  have hn0 : p0.1 ∈ nonemptyNames (calcGet doc c0) :=
    (mem_nonemptyNames_iff _ _).mpr ⟨p0.2, hp0, hp0ne⟩
  have hnn0 : nonemptyNames (calcGet doc c0) ≠ [] := by
    intro hnil
    rw [hnil] at hn0
    cases hn0
  have hdk0 : (c0, nonemptyNames (calcGet doc c0)) ∈
      computeDiffKeys calcNames doc none :=
    (mem_computeDiffKeys_none calcNames doc c0 _).mpr ⟨hc0, rfl, hnn0⟩
  have hdkne : (computeDiffKeys calcNames doc none).isEmpty = false := by
    cases hd : computeDiffKeys calcNames doc none
    · rw [hd] at hdk0
      cases hdk0
    · rfl
  have hvals : ∀ p ∈ computeDiffKeys calcNames doc none, ∀ n ∈ p.2,
      ((calcGet doc p.1).lookup n).isSome = true := by
    intro p hp n hn
    obtain ⟨_, hpn, _⟩ :=
      (mem_computeDiffKeys_none calcNames doc p.1 p.2).mp hp
    rw [hpn] at hn
    obtain ⟨vs, hvm, _⟩ := (mem_nonemptyNames_iff _ _).mp hn
    rw [lookup_isSome_iff]
    exact List.mem_map.mpr ⟨(n, vs), hvm, rfl⟩
  have hkindsDk : ∀ p ∈ computeDiffKeys calcNames doc none, ∀ n ∈ p.2,
      isOkE (kindGet kinds p.1 n) = true := by
    intro p hp n hn
    obtain ⟨hpc, hpn, _⟩ :=
      (mem_computeDiffKeys_none calcNames doc p.1 p.2).mp hp
    rw [hpn] at hn
    obtain ⟨vs, hvm, _⟩ := (mem_nonemptyNames_iff _ _).mp hn
    exact hkinds p.1 hpc (n, vs) hvm
  obtain ⟨gv, hgv⟩ := lookupAll_ok doc.fields doc.groupBy hgroup
  obtain ⟨chs, hchs, hchsmem⟩ := buildChanges_none_ok kinds doc
    (computeDiffKeys calcNames doc none) hvals hkindsDk
  refine ⟨⟨"fluff", docType, doc.groupBy, gv, chs⟩, ?_, ?_⟩
  · rw [diffDoc]
    simp only [hdkne, Bool.false_eq_true, if_false]
    rw [groupValues] at *
    rw [hgv, hchs]
  · intro c hc em vs hvs hvsne
    have hmemn : em ∈ nonemptyNames (calcGet doc c) :=
      (mem_nonemptyNames_iff _ _).mpr ⟨vs, mem_of_lookup_some hvs, hvsne⟩
    have hnnne : nonemptyNames (calcGet doc c) ≠ [] := by
      intro hnil
      rw [hnil] at hmemn
      cases hmemn
    have hdkc : (c, nonemptyNames (calcGet doc c)) ∈
        computeDiffKeys calcNames doc none :=
      (mem_computeDiffKeys_none calcNames doc c _).mpr ⟨hc, rfl, hnnne⟩
    exact hchsmem (c, nonemptyNames (calcGet doc c)) hdkc em hmemn vs hvs

/-- Witness for `C5_diff_without_previous`: one calculator with a
non-empty emitter `e` and an empty emitter `g`, one group-by field. -/
theorem C5_diff_without_previous_witness :
    (∀ c ∈ ["C"], ∀ p ∈ calcGet ⟨[("C", [("e", [1, 2]), ("g", [])])],
        [("dom", 5)], ["dom"], "id"⟩ c,
      isOkE (kindGet [("C", [("e", "date"), ("g", "date")])] c p.1) = true) ∧
    (∀ g ∈ (⟨[("C", [("e", [1, 2]), ("g", [])])], [("dom", 5)], ["dom"],
        "id"⟩ : IndicatorDoc).groupBy,
      (([(("dom" : String), (5 : Int))]).lookup g).isSome = true) ∧
    (∃ c ∈ ["C"], ∃ p ∈ calcGet ⟨[("C", [("e", [1, 2]), ("g", [])])],
        [("dom", 5)], ["dom"], "id"⟩ c, p.2 ≠ ([] : List Int)) ∧
    (∃ d, diffDoc ["C"] [("C", [("e", "date"), ("g", "date")])] "T"
        ⟨[("C", [("e", [1, 2]), ("g", [])])], [("dom", 5)], ["dom"], "id"⟩
        none = .ok (some d) ∧
      ∀ c ∈ ["C"], ∀ em vs,
        (calcGet ⟨[("C", [("e", [1, 2]), ("g", [])])], [("dom", 5)],
          ["dom"], "id"⟩ c).lookup em = some vs → vs ≠ [] →
        ∃ k, (⟨c, em, k, vs⟩ : IndicatorChange) ∈ d.indicator_changes) :=
  ⟨by decide, by decide, by decide,
    C5_diff_without_previous ["C"] [("C", [("e", "date"), ("g", "date")])]
      "T" ⟨[("C", [("e", [1, 2]), ("g", [])])], [("dom", 5)], ["dom"], "id"⟩
      (by decide) (by decide) (by decide)⟩

end Fluff
